import Mathlib

/-!
Shallow embedding of `src/main.py` (postgres_csv_injector): a CSV-to-PostgreSQL
bulk loader.  Pure string processing (header/table-name sanitization, file-name
handling) is translated directly; the store (PostgreSQL) and the filesystem are
modelled as explicit state threaded through the functions.

Modelling conventions, stated once:
* Characters are Lean `Char` (Unicode scalar values).  Python's `str.lower`
  is modelled on the ASCII range (table `upperLower`); outside ASCII it is the
  identity, which agrees with Python on the Hangul syllable range the source
  mentions explicitly.  Python's regex class `\w` is modelled as ASCII
  alphanumerics plus underscore plus the Hangul syllable range: the alphabet
  the source's regexes name explicitly.
* The store connection is assumed reachable (the spec treats connect/execute
  as an opaque external collaborator); SQL identifier quoting is abstracted:
  schema/table names act as structural keys.  Transaction rollback state is
  abstracted: each modelled statement takes effect immediately.
* `pandas.read_csv(..., dtype=str)` chunk reading is modelled as chunking the
  row list, with pandas' default NA filtering kept (the source does not pass
  `na_values`/`keep_default_na`): a field equal to a default NA sentinel is
  read as missing, `to_csv` writes it as an empty field and `COPY ... WITH
  CSV` stages it as SQL NULL, so `row_to_json` emits null.  A record longer
  than the header makes the chunk read raise; a shorter record is padded with
  missing values.
-/

/-- Association-list lookup with decidable key equality (models dict / catalog
lookup on names). -/
def aget {α β : Type} [DecidableEq α] (a : α) : List (α × β) → Option β
  | [] => none
  | (k, v) :: l => if k = a then some v else aget a l

/-- Remove every binding of a key (models `DROP ... IF EXISTS` / `os.remove`). -/
def aerase {α β : Type} [DecidableEq α] (a : α) (l : List (α × β)) : List (α × β) :=
  l.filter (fun p => p.1 ≠ a)

/-- Insert or overwrite a binding. -/
def aset {α β : Type} [DecidableEq α] (a : α) (b : β) (l : List (α × β)) : List (α × β) :=
  (a, b) :: aerase a l

/-- ASCII upper-to-lower table: the fragment of Python `str.lower` visible in
this program's alphabet (non-ASCII characters, including Hangul, are fixed). -/
def upperLower : List (Char × Char) :=
  [('A','a'),('B','b'),('C','c'),('D','d'),('E','e'),('F','f'),('G','g'),
   ('H','h'),('I','i'),('J','j'),('K','k'),('L','l'),('M','m'),('N','n'),
   ('O','o'),('P','p'),('Q','q'),('R','r'),('S','s'),('T','t'),('U','u'),
   ('V','v'),('W','w'),('X','x'),('Y','y'),('Z','z')]

/-- One character of Python `str.lower` (see `upperLower`). -/
def lowerChar (c : Char) : Char := (aget c upperLower).getD c

/-- Python `str.lower` (character-wise over the modelled alphabet). -/
def lowerStr (s : String) : String := ⟨s.data.map lowerChar⟩

/-- The literal range `가-힣` from the regex in `main.py` line 73 (Hangul
syllables U+AC00 to U+D7A3). -/
def hangulSyllable (c : Char) : Bool :=
  decide (0xAC00 ≤ c.toNat) && decide (c.toNat ≤ 0xD7A3)

/-- The character class `[\w가-힣]` of the column-name regex (variant A),
`main.py` line 73: word characters or Hangul syllables. -/
def isWordA (c : Char) : Bool := c.isAlphanum || c == '_' || hangulSyllable c

/-- The substitution of `re.sub(r'[^\w가-힣]', '_', header)`, `main.py` line 73. -/
def subA (s : String) : String :=
  ⟨s.data.map (fun c => if isWordA c then c else '_')⟩

/-- Column-name sanitizer, variant A: `re.sub(r'[^\w가-힣]', '_', header).lower()`
(`main.py` line 73, the body of the loop building `clean_headers`). -/
def clean_header (s : String) : String := lowerStr (subA s)

/-- The action of variant A on one character: substitute, then lower. -/
def cleanChar (c : Char) : Char := lowerChar (if isWordA c then c else '_')

/-- Reference definition written from the spec's words (§4.1): replace every
character outside the permitted set (alphanumerics, underscore, plus the
extended permitted script) with an underscore, then lower-case the result. -/
def spec_sanitize_column (s : String) : String :=
  lowerStr ⟨s.data.map (fun c =>
    if c.isAlphanum || c == '_' || hangulSyllable c then c else '_')⟩

/-- The character class `[a-zA-Z0-9_]` of the table-name regex (variant B),
`main.py` line 198. -/
def isWordB (c : Char) : Bool := c.isAlphanum || c == '_'

/-- The substitution of `re.sub(r'[^a-zA-Z0-9_]', '_', table_name)`,
`main.py` line 198. -/
def subB (s : String) : String :=
  ⟨s.data.map (fun c => if isWordB c then c else '_')⟩

/-- Model of `os.path.splitext(p)[0]`: everything before the last dot, except that a
leading run of dots never starts an extension (CPython `genericpath._splitext`
restricted to bare file names, which is what `os.listdir` yields). -/
def splitextBase (p : String) : String :=
  let cs := p.data
  match (cs.reverse).findIdx? (fun c => c == '.') with
  | none => p
  | some k =>
    let dotIdx := cs.length - 1 - k
    if (cs.take dotIdx).any (fun c => c != '.') then ⟨cs.take dotIdx⟩ else p

/-- Model of `os.path.join` for the shapes the program produces (directory plus a bare
entry name). -/
def pathJoin (d f : String) : String :=
  if f.data.head? = some '/' then f
  else if d = "" then f
  else if d.data.getLast? = some '/' then d ++ f
  else d ++ "/" ++ f

/-- Discovery filter of `inject_multiple` (`main.py` line 164):
`f.lower().endswith('.csv')`. -/
def matchesCsv (name : String) : Bool :=
  List.isSuffixOf ".csv".data (lowerStr name).data

/-- Destination-name policy of `inject_multiple` (`main.py` lines 192-198):
optional fixed table prefix concatenated to the lower-cased, extension-stripped
base name, then the variant-B substitution. -/
def derive_table_name (usePfx : Bool) (pfx : String) (fileName : String) : String :=
  let base := lowerStr (splitextBase fileName)
  subB (if usePfx then pfx ++ base else base)

/-- A delimited source file: one header row and the data rows, every field an
opaque string (`dtype=str`: no numeric coercion). -/
structure CsvFile where
  header : List String
  rows : List (List String)
deriving DecidableEq, Repr

/-- A filesystem entry: a delimited file or a directory listing its immediate
entry names. -/
inductive FsEntry : Type
  | file (f : CsvFile)
  | dir (entries : List String)
deriving DecidableEq, Repr

/-- The filesystem: paths bound to entries. -/
abbrev FileSystem : Type := List (String × FsEntry)

/-- The default NA sentinels of `pd.read_csv`.  The source passes only
`dtype=str` (`main.py` line 93), leaving `na_filter`/`keep_default_na` at
their defaults, so a field equal to one of these strings is read as NaN even
though every other value stays a string. -/
def naValues : List String :=
  ["", "#N/A", "#N/A N/A", "#NA", "-1.#IND", "-1.#INF", "-1.#QNAN", "-NaN",
   "-nan", "1.#IND", "1.#QNAN", "<NA>", "N/A", "NA", "NULL", "NaN", "None",
   "n/a", "nan", "null"]

/-- One source field after `pd.read_csv(..., dtype=str)`: an NA sentinel
becomes a missing value (`none`); every other field is kept verbatim. -/
def naConvert (s : String) : Option String :=
  if s ∈ naValues then none else some s

/-- One record read against a header of width `w`: every field is
NA-converted, and a record shorter than the header is padded with missing
values (pandas fills absent trailing columns with NaN). -/
def padRow (w : Nat) (r : List String) : List (Option String) :=
  r.map naConvert ++ List.replicate (w - r.length) none

/-- Read one chunk of records: the tokenizer raises (ParserError) iff some
record is longer than the header; otherwise every record is NA-converted and
padded to the header width. -/
def readChunk (w : Nat) (c : List (List String)) :
    Option (List (List (Option String))) :=
  if c.all (fun r => decide (r.length ≤ w)) then some (c.map (padRow w))
  else none

/-- The text `chunk.to_csv` writes for a staged chunk: a missing value (NaN)
becomes an unquoted empty field, which `COPY ... WITH CSV` in turn reads back
as SQL NULL. -/
def chunkToCsv (c : List (List (Option String))) : List (List String) :=
  c.map (fun r => r.map (fun cell => cell.getD ""))

/-- The store state: created schemas, the fixed-name staging table `csv_temp`
(its text columns and staged rows, a cell being text or SQL NULL), and the
destination tables, each a list of JSON objects (ordered key/value pairs,
a value being a JSON string or JSON null) keyed by (schema, table). -/
structure DB where
  schemas : List String
  csvTemp : Option (List String × List (List (Option String)))
  tables : List ((String × String) × List (List (String × Option String)))
deriving DecidableEq, Repr

/-- Statement `CREATE SCHEMA IF NOT EXISTS` (`main.py` line 63). -/
def ensureSchema (s : String) (db : DB) : DB :=
  if s ∈ db.schemas then db else { db with schemas := s :: db.schemas }

/-- Statements `DROP TABLE IF EXISTS` followed by `CREATE TABLE` + `INSERT`: the
destination relation is fully replaced (`main.py` lines 117-132). -/
def setTable (k : String × String) (rows : List (List (String × Option String)))
    (db : DB) : DB :=
  { db with tables := aset k rows db.tables }

/-- Destination-relation lookup. -/
def getTable (k : String × String) (db : DB) :
    Option (List (List (String × Option String))) :=
  aget k db.tables

/-- The fixed name of the per-batch intermediate file (`main.py` line 100). -/
def tmpName : String := "tmp_chunk.csv"

/-- Split a list into chunks of `n` (fuel-driven so that it reduces in the
kernel); models `pd.read_csv(..., chunksize=n)`. -/
def chunksGo {α : Type} (n : Nat) : Nat → List α → List (List α)
  | _, [] => []
  | 0, _ => []
  | fuel + 1, a :: l => ((a :: l).take n) :: chunksGo n fuel ((a :: l).drop n)

/-- All chunks of size `n` of a list, in order.  `n = 0` is outside the model
(pandas rejects `chunksize=0`). -/
def chunksOf {α : Type} (n : Nat) (l : List α) : List (List α) :=
  if n = 0 then [] else chunksGo n l.length l

/-- The chunk loop of `inject_single` (`main.py` lines 90-109): for each chunk,
read it via `readChunk` (raising on a record longer than the header, which
aborts the loader; NA-filtering and padding shorter records otherwise), write
the read chunk to the intermediate file `tmp_chunk.csv` as `to_csv` renders
it, and `COPY` it into `csv_temp`.  Returns (loader succeeded, staged rows so
far, filesystem).  The intermediate file is NOT removed here: the source
removes it only after the loop (lines 112-113). -/
def loadChunks (hlen : Nat) (clean : List String) :
    List (List (List String)) → List (List (Option String)) → FileSystem →
    Bool × List (List (Option String)) × FileSystem
  | [], staged, fs => (true, staged, fs)
  | c :: rest, staged, fs =>
    match readChunk hlen c with
    | none => (false, staged, fs)
    | some pc =>
      loadChunks hlen clean rest (staged ++ pc)
        (aset tmpName (FsEntry.file ⟨clean, chunkToCsv pc⟩) fs)

/-- Result of one ingestion: boolean success flag, store state, filesystem
state, and whether any store connection/statement was used. -/
structure SingleResult where
  ok : Bool
  db : DB
  fs : FileSystem
  usedStore : Bool
deriving DecidableEq, Repr

/-- The body of `inject_single` once the path resolved to a delimited file:
sanitize headers, drop-and-recreate `csv_temp` (the `CREATE` fails when two
sanitized names collide), run the chunk loader, remove the intermediate file
(success path only), then drop-and-recreate the destination and materialize
one JSON object per staged row (`main.py` lines 60-146). -/
def inject_file (fs : FileSystem) (table_name schema_name : String) (db : DB)
    (csz : Nat) (f : CsvFile) : SingleResult :=
  let db1 : DB := { ensureSchema schema_name db with csvTemp := none }
  let clean := f.header.map clean_header
  if clean.Nodup then
    let out := loadChunks f.header.length clean (chunksOf csz f.rows) [] fs
    if out.1 then
      ⟨true,
       setTable (schema_name, table_name) (out.2.1.map (fun r => clean.zip r))
         { db1 with csvTemp := some (clean, out.2.1) },
       aerase tmpName out.2.2, true⟩
    else ⟨false, { db1 with csvTemp := some (clean, out.2.1) }, out.2.2, true⟩
  else ⟨false, db1, fs, true⟩

/-- Function `inject_single(csv_path, table_name, schema_name, conn)` (`main.py` lines
38-154), with the batch size (`chunk_size`, 10000 in the source) as the
configurable parameter the spec names.  A missing path fails before any store
interaction; an existing directory path passes the existence check, creates
the schema, then fails when `pd.read_csv` raises. -/
def inject_single (fs : FileSystem) (csv_path table_name schema_name : String)
    (db : DB) (csz : Nat) : SingleResult :=
  match aget csv_path fs with
  | none => ⟨false, db, fs, false⟩
  | some (FsEntry.dir _) => ⟨false, ensureSchema schema_name db, fs, true⟩
  | some (FsEntry.file f) => inject_file fs table_name schema_name db csz f

/-- Result of a directory batch: overall flag, final store and filesystem, and
the per-file outcomes in processing order (the tally the source prints as
`success_count`/`len(csv_files)`). -/
structure MultiResult where
  ok : Bool
  db : DB
  fs : FileSystem
  results : List (String × Bool)
deriving DecidableEq, Repr

/-- One iteration of the batch loop (`main.py` lines 189-204). -/
def batchStep (directory schema_name : String) (usePfx : Bool) (pfx : String)
    (csz : Nat) (acc : DB × FileSystem × List (String × Bool)) (file : String) :
    DB × FileSystem × List (String × Bool) :=
  let r := inject_single acc.2.1 (pathJoin directory file)
    (derive_table_name usePfx pfx file) schema_name acc.1 csz
  (r.db, r.fs, acc.2.2 ++ [(file, r.ok)])

/-- Function `inject_multiple(directory, schema_name, use_prefix, table_prefix, conn)`
(`main.py` lines 157-211): fail if the path is not an existing directory;
list immediate entries whose lower-cased name ends in `.csv`; fail if none;
otherwise ingest each in order, tally successes, and succeed iff at least one
file succeeded. -/
def inject_multiple (fs : FileSystem) (directory schema_name : String)
    (usePfx : Bool) (pfx : String) (db : DB) (csz : Nat) : MultiResult :=
  match aget directory fs with
  | some (FsEntry.dir entries) =>
    let csvFiles := entries.filter (fun n => matchesCsv n)
    if csvFiles.isEmpty then ⟨false, db, fs, []⟩
    else
      let fin := csvFiles.foldl (batchStep directory schema_name usePfx pfx csz) (db, fs, [])
      ⟨decide (0 < (fin.2.2.filter (fun p => p.2)).length), fin.1, fin.2.1, fin.2.2⟩
  | _ => ⟨false, db, fs, []⟩

/-! ### Association-list lemmas -/

theorem aget_aerase_ne {α β : Type} [DecidableEq α] {a q : α} (l : List (α × β))
    (h : q ≠ a) : aget q (aerase a l) = aget q l := by
  induction l with
  | nil => rfl
  | cons p l ih =>
    rcases p with ⟨k, v⟩
    by_cases hk : k = a
    · have he : aerase a ((k, v) :: l) = aerase a l := by
        simp [aerase, List.filter_cons, hk]
      rw [he, ih, aget, if_neg (fun hq : k = q => h (hq.symm.trans hk))]
    · have he : aerase a ((k, v) :: l) = (k, v) :: aerase a l := by
        simp [aerase, List.filter_cons, hk]
      rw [he, aget, aget]
      by_cases hkq : k = q
      · rw [if_pos hkq, if_pos hkq]
      · rw [if_neg hkq, if_neg hkq, ih]

theorem aerase_idem {α β : Type} [DecidableEq α] (a : α) (l : List (α × β)) :
    aerase a (aerase a l) = aerase a l := by
  rw [aerase, aerase, List.filter_filter]
  exact List.filter_congr (fun p _ => by by_cases h : p.1 = a <;> simp [h])

theorem aerase_aset_self {α β : Type} [DecidableEq α] (a : α) (b : β) (l : List (α × β)) :
    aerase a (aset a b l) = aerase a l := by
  rw [aset]
  have he : aerase a ((a, b) :: aerase a l) = aerase a (aerase a l) := by
    simp [aerase, List.filter_cons]
  rw [he, aerase_idem]

theorem aget_aset_self {α β : Type} [DecidableEq α] (a : α) (b : β) (l : List (α × β)) :
    aget a (aset a b l) = some b := by
  rw [aset, aget, if_pos rfl]

theorem aget_aset_ne {α β : Type} [DecidableEq α] {a q : α} (b : β) (l : List (α × β))
    (h : q ≠ a) : aget q (aset a b l) = aget q l := by
  rw [aset, aget, if_neg (fun hq : a = q => h hq.symm), aget_aerase_ne l h]

theorem aget_mem {α β : Type} [DecidableEq α] {a : α} {b : β} {l : List (α × β)}
    (h : aget a l = some b) : (a, b) ∈ l := by
  induction l with
  | nil => simp [aget] at h
  | cons p l ih =>
    rcases p with ⟨k, v⟩
    rw [aget] at h
    by_cases hk : k = a
    · rw [if_pos hk] at h
      exact List.mem_cons.mpr (Or.inl (by rw [hk] at *; injection h with h2; rw [h2]))
    · rw [if_neg hk] at h
      exact List.mem_cons.mpr (Or.inr (ih h))

/-! ### Sanitizer lemmas -/

theorem upperLower_snd_facts :
    ∀ p ∈ upperLower, isWordA p.2 = true ∧ aget p.2 upperLower = none := by decide

theorem lowerChar_idem (c : Char) : lowerChar (lowerChar c) = lowerChar c := by
  rcases h : aget c upperLower with _ | d
  · have hc : lowerChar c = c := by rw [lowerChar, h]; rfl
    rw [hc]; exact hc
  · have hc : lowerChar c = d := by rw [lowerChar, h]; rfl
    have hd := (upperLower_snd_facts _ (aget_mem h)).2
    rw [hc, lowerChar, hd]; rfl

theorem isWordA_lowerChar {c : Char} (h : isWordA c = true) :
    isWordA (lowerChar c) = true := by
  rcases hg : aget c upperLower with _ | d
  · have hc : lowerChar c = c := by rw [lowerChar, hg]; rfl
    rw [hc]; exact h
  · have hc : lowerChar c = d := by rw [lowerChar, hg]; rfl
    rw [hc]
    exact (upperLower_snd_facts _ (aget_mem hg)).1

theorem cleanChar_idem (c : Char) : cleanChar (cleanChar c) = cleanChar c := by
  by_cases h : isWordA c = true
  · have hc : cleanChar c = lowerChar c := by rw [cleanChar, if_pos h]
    rw [hc, cleanChar, if_pos (isWordA_lowerChar h), lowerChar_idem]
  · have hc : cleanChar c = '_' := by
      rw [cleanChar, if_neg h]; rfl
    rw [hc]; rfl

theorem clean_header_eq_map (s : String) : clean_header s = ⟨s.data.map cleanChar⟩ := by
  rw [clean_header, subA, lowerStr]
  simp only [List.map_map]
  rfl

/-! ### Chunking lemmas -/

theorem chunksGo_flatten {α : Type} {n : Nat} (hn : n ≠ 0) (fuel : Nat) (l : List α)
    (h : l.length ≤ fuel) : (chunksGo n fuel l).flatten = l := by
  induction fuel generalizing l with
  | zero =>
    match l with
    | [] => rfl
    | a :: l => exact absurd h (by simp)
  | succ fuel ih =>
    match l with
    | [] => rfl
    | a :: l =>
      rw [chunksGo]
      have hlen : ((a :: l).drop n).length ≤ fuel := by
        rw [List.length_drop]
        have h1 : 1 ≤ n := Nat.one_le_iff_ne_zero.mpr hn
        have := List.length_cons a l
        omega
      simp only [List.flatten_cons, ih _ hlen, List.take_append_drop]

theorem chunksOf_flatten {α : Type} {n : Nat} (hn : n ≠ 0) (l : List α) :
    (chunksOf n l).flatten = l := by
  rw [chunksOf, if_neg hn]
  exact chunksGo_flatten hn l.length l le_rfl

theorem mem_of_mem_chunksGo {α : Type} {n fuel : Nat} {l c : List α} {r : α}
    (hc : c ∈ chunksGo n fuel l) (hr : r ∈ c) : r ∈ l := by
  induction fuel generalizing l with
  | zero =>
    match l with
    | [] => simp [chunksGo] at hc
    | a :: l => simp [chunksGo] at hc
  | succ fuel ih =>
    match l with
    | [] => simp [chunksGo] at hc
    | a :: l =>
      rw [chunksGo] at hc
      rcases List.mem_cons.mp hc with h | h
      · subst h; exact List.take_subset n _ hr
      · exact List.drop_subset n _ (ih h)

theorem mem_of_mem_chunksOf {α : Type} {n : Nat} {l c : List α} {r : α}
    (hc : c ∈ chunksOf n l) (hr : r ∈ c) : r ∈ l := by
  rw [chunksOf] at hc
  by_cases hn : n = 0
  · rw [if_pos hn] at hc; simp at hc
  · rw [if_neg hn] at hc; exact mem_of_mem_chunksGo hc hr

/-! ### Chunk-loader lemmas -/

theorem loadChunks_cons (hlen : Nat) (clean : List String) (c : List (List String))
    (rest : List (List (List String))) (staged : List (List (Option String)))
    (fs : FileSystem) :
    loadChunks hlen clean (c :: rest) staged fs =
      if c.all (fun r => decide (r.length ≤ hlen)) then
        loadChunks hlen clean rest (staged ++ c.map (padRow hlen))
          (aset tmpName (FsEntry.file ⟨clean, chunkToCsv (c.map (padRow hlen))⟩) fs)
      else (false, staged, fs) := by
  rw [loadChunks, readChunk]
  by_cases h : c.all (fun r => decide (r.length ≤ hlen)) = true
  · rw [if_pos h, if_pos h]
  · rw [if_neg h, if_neg h]

theorem loadChunks_fst (hlen : Nat) (clean : List String)
    (chs : List (List (List String))) (staged : List (List (Option String)))
    (fs : FileSystem) :
    (loadChunks hlen clean chs staged fs).1 =
      chs.all (fun c => c.all (fun r => decide (r.length ≤ hlen))) := by
  induction chs generalizing staged fs with
  | nil => rfl
  | cons c rest ih =>
    rw [loadChunks_cons, List.all_cons]
    by_cases hc : c.all (fun r => decide (r.length ≤ hlen)) = true
    · rw [if_pos hc, hc, ih, Bool.true_and]
    · rw [if_neg hc]
      simp only [Bool.not_eq_true] at hc
      rw [hc, Bool.false_and]

theorem loadChunks_staged_of_all (hlen : Nat) (clean : List String)
    (chs : List (List (List String))) (staged : List (List (Option String)))
    (fs : FileSystem)
    (hall : chs.all (fun c => c.all (fun r => decide (r.length ≤ hlen))) = true) :
    (loadChunks hlen clean chs staged fs).2.1 =
      staged ++ (chs.flatten).map (padRow hlen) := by
  induction chs generalizing staged fs with
  | nil => simp [loadChunks]
  | cons c rest ih =>
    rw [List.all_cons, Bool.and_eq_true] at hall
    rw [loadChunks_cons, if_pos hall.1, ih _ _ hall.2, List.flatten_cons,
      List.map_append, List.append_assoc]

theorem loadChunks_erase_fs (hlen : Nat) (clean : List String)
    (chs : List (List (List String))) (staged : List (List (Option String)))
    (fs : FileSystem) :
    aerase tmpName (loadChunks hlen clean chs staged fs).2.2 = aerase tmpName fs := by
  induction chs generalizing staged fs with
  | nil => rfl
  | cons c rest ih =>
    rw [loadChunks_cons]
    by_cases hc : c.all (fun r => decide (r.length ≤ hlen)) = true
    · rw [if_pos hc, ih, aerase_aset_self]
    · rw [if_neg hc]

theorem loadChunks_fs_ne (hlen : Nat) (clean : List String)
    (chs : List (List (List String))) (staged : List (List (Option String)))
    (fs : FileSystem) {q : String} (hq : q ≠ tmpName) :
    aget q (loadChunks hlen clean chs staged fs).2.2 = aget q fs := by
  induction chs generalizing staged fs with
  | nil => rfl
  | cons c rest ih =>
    rw [loadChunks_cons]
    by_cases hc : c.all (fun r => decide (r.length ≤ hlen)) = true
    · rw [if_pos hc, ih, aget_aset_ne _ _ hq]
    · rw [if_neg hc]

/-! ### Single-file ingestion characterizations -/

theorem inject_single_eq_none {fs : FileSystem} {p : String} (t s : String) (db : DB)
    (csz : Nat) (h : aget p fs = none) :
    inject_single fs p t s db csz = ⟨false, db, fs, false⟩ := by
  rw [inject_single, h]

theorem inject_single_eq_dir {fs : FileSystem} {p : String} (t s : String) (db : DB)
    (csz : Nat) {es : List String} (h : aget p fs = some (FsEntry.dir es)) :
    inject_single fs p t s db csz = ⟨false, ensureSchema s db, fs, true⟩ := by
  rw [inject_single, h]

theorem inject_single_eq_file {fs : FileSystem} {p : String} (t s : String) (db : DB)
    (csz : Nat) {f : CsvFile} (h : aget p fs = some (FsEntry.file f)) :
    inject_single fs p t s db csz = inject_file fs t s db csz f := by
  rw [inject_single, h]

theorem inject_file_eq_dup (fs : FileSystem) (t s : String) (db : DB) (csz : Nat)
    (f : CsvFile) (hnd : ¬ (f.header.map clean_header).Nodup) :
    inject_file fs t s db csz f =
      ⟨false, { ensureSchema s db with csvTemp := none }, fs, true⟩ := by
  rw [inject_file]
  simp only [hnd, if_false]

theorem inject_file_eq_success (fs : FileSystem) (t s : String) (db : DB) (csz : Nat)
    (f : CsvFile) (hnd : (f.header.map clean_header).Nodup)
    (hall : (chunksOf csz f.rows).all
      (fun c => c.all (fun r => decide (r.length ≤ f.header.length))) = true) :
    inject_file fs t s db csz f =
      ⟨true,
       setTable (s, t) ((((chunksOf csz f.rows).flatten).map (padRow f.header.length)).map
           (fun r => (f.header.map clean_header).zip r))
         { ensureSchema s db with
             csvTemp := some (f.header.map clean_header,
               ((chunksOf csz f.rows).flatten).map (padRow f.header.length)) },
       aerase tmpName fs, true⟩ := by
  rw [inject_file]
  simp only [hnd, if_true]
  simp only [loadChunks_fst, hall, if_true, loadChunks_erase_fs,
    loadChunks_staged_of_all _ _ _ _ _ hall, List.nil_append]

theorem ensureSchema_tables (s : String) (db : DB) :
    (ensureSchema s db).tables = db.tables := by
  rw [ensureSchema]
  by_cases h : s ∈ db.schemas
  · rw [if_pos h]
  · rw [if_neg h]

theorem inject_file_fail_parts (fs : FileSystem) (t s : String) (db : DB) (csz : Nat)
    (f : CsvFile) (hnd : (f.header.map clean_header).Nodup)
    (hall : (chunksOf csz f.rows).all
      (fun c => c.all (fun r => decide (r.length ≤ f.header.length))) = false) :
    (inject_file fs t s db csz f).ok = false ∧
    (inject_file fs t s db csz f).db.tables = db.tables ∧
    (∀ q, q ≠ tmpName →
      aget q (inject_file fs t s db csz f).fs = aget q fs) := by
  have h1 : (loadChunks f.header.length (f.header.map clean_header)
      (chunksOf csz f.rows) [] fs).1 = false := by
    rw [loadChunks_fst, hall]
  rw [inject_file]
  simp only [hnd, if_true, h1, Bool.false_eq_true, if_false]
  exact ⟨by trivial, ensureSchema_tables s db,
    fun q hq => loadChunks_fs_ne _ _ _ _ _ hq⟩

/-! ### Batch lemmas -/

theorem getTable_setTable_self (k : String × String)
    (rows : List (List (String × Option String))) (db : DB) :
    getTable k (setTable k rows db) = some rows := by
  rw [getTable, setTable]
  exact aget_aset_self _ _ _

theorem chunks_all_of_wf {n hlen : Nat} {l : List (List String)}
    (h : ∀ r ∈ l, r.length = hlen) :
    (chunksOf n l).all (fun c => c.all (fun r => decide (r.length ≤ hlen))) = true := by
  rw [List.all_eq_true]
  intro c hc
  rw [List.all_eq_true]
  intro r hr
  have := h r (mem_of_mem_chunksOf hc hr)
  simp [this]

theorem batch_foldl_results (d sn : String) (u : Bool) (p : String) (csz : Nat)
    (files : List String) :
    ∀ (db : DB) (fs : FileSystem) (acc : List (String × Bool)),
    ((files.foldl (batchStep d sn u p csz) (db, fs, acc)).2.2).map Prod.fst =
      acc.map Prod.fst ++ files := by
  induction files with
  | nil => intro db fs acc; simp
  | cons x xs ih =>
    intro db fs acc
    simp only [List.foldl_cons, batchStep]
    rw [ih]
    simp

theorem pos_filter_iff (l : List (String × Bool)) :
    decide (0 < (l.filter (fun p => p.2)).length) = true ↔
      ∃ pr ∈ l, pr.2 = true := by
  rw [decide_eq_true_eq, List.length_pos]
  constructor
  · intro h
    rcases List.exists_mem_of_ne_nil _ h with ⟨pr, hm⟩
    exact ⟨pr, List.mem_of_mem_filter hm, List.of_mem_filter hm⟩
  · rintro ⟨pr, hm, hb⟩
    intro hnil
    have hmem : pr ∈ l.filter (fun p => p.2) := List.mem_filter.mpr ⟨hm, hb⟩
    rw [hnil] at hmem
    simp at hmem

/-! ### Claim theorems -/

/-- C2: the column-name sanitizer (variant A) equals the spec's reference
definition (replace each character outside the permitted set with an
underscore, then lower-case); it is deterministic, and sanitizing a header
sequence yields one output per input, preserving column count and order
(duplicates not removed). -/
theorem sanitizerA_refines_spec (s u : String) (hs : List String) (i : Nat) :
    clean_header s = spec_sanitize_column s ∧
    (s = u → clean_header s = clean_header u) ∧
    (hs.map clean_header).length = hs.length ∧
    (hs.map clean_header)[i]? = (hs[i]?).map clean_header := by
  refine ⟨?_, fun h => by rw [h], by rw [List.length_map], ?_⟩
  · rw [clean_header, subA, spec_sanitize_column]
    rfl
  · rw [List.getElem?_map]

/-- Witness for `sanitizerA_refines_spec` at the spec §8 header example. -/
theorem sanitizerA_refines_spec_witness :
    ("First Name" : String) = "First Name" ∧
    (clean_header "First Name" = spec_sanitize_column "First Name" ∧
     (("First Name" : String) = "First Name" →
       clean_header "First Name" = clean_header "First Name") ∧
     (["First Name", "Age"].map clean_header).length = (["First Name", "Age"] : List String).length ∧
     (["First Name", "Age"].map clean_header)[1]? = ((["First Name", "Age"] : List String)[1]?).map clean_header) :=
  ⟨rfl, sanitizerA_refines_spec "First Name" "First Name" ["First Name", "Age"] 1⟩

/-- C3 counterexample: the substitution of the table/file-name sanitizer
(variant B) is NOT identical to that of the column-name sanitizer (variant A):
on the Hangul character permitted by variant A's class, variant B substitutes
an underscore while variant A keeps it. -/
theorem sanitizer_variants_differ :
    subB "가" = "_" ∧ subA "가" = "가" ∧ subB "가" ≠ subA "가" := by decide

/-- C3 (amended): variant B's substitution agrees with variant A's on every
string of ASCII characters (they differ exactly on the extended permitted
script such as Hangul, which A keeps and B replaces); variant B is applied to
a name already lower-cased and extension-stripped. -/
theorem sanitizerB_matches_A_on_ascii (s : String) (u : Bool) (p n : String)
    (h : ∀ c ∈ s.data, c.toNat < 128) :
    subB s = subA s ∧
    derive_table_name u p n =
      subB (if u then p ++ lowerStr (splitextBase n) else lowerStr (splitextBase n)) := by
  constructor
  · rw [subA, subB]
    congr 1
    apply List.map_congr_left
    intro c hc
    have hh : hangulSyllable c = false := by
      rw [hangulSyllable]
      have h128 := h c hc
      simp only [Bool.and_eq_false_iff, decide_eq_false_iff_not, not_le]
      left
      omega
    rw [show isWordA c = isWordB c by rw [isWordA, isWordB, hh, Bool.or_false]]
  · rw [derive_table_name]

/-- Witness for `sanitizerB_matches_A_on_ascii` on an ASCII string. -/
theorem sanitizerB_matches_A_on_ascii_witness :
    (∀ c ∈ ("Data 2024!" : String).data, c.toNat < 128) ∧
    (subB "Data 2024!" = subA "Data 2024!" ∧
     derive_table_name true "data_" "My File.CSV" =
       subB ("data_" ++ lowerStr (splitextBase "My File.CSV"))) :=
  ⟨by decide, sanitizerB_matches_A_on_ascii "Data 2024!" true "data_" "My File.CSV" (by decide)⟩

/-- C4: ingesting a path that does not exist returns failure without opening
any store connection and with no store or filesystem effect: the result is
`false` and both states are returned untouched. -/
theorem missing_path_no_effects (fs : FileSystem) (db : DB) (p t s : String)
    (csz : Nat) (h : aget p fs = none) :
    inject_single fs p t s db csz = ⟨false, db, fs, false⟩ :=
  inject_single_eq_none t s db csz h

/-- Witness for `missing_path_no_effects` on an empty filesystem. -/
theorem missing_path_no_effects_witness :
    aget "nope.csv" ([] : FileSystem) = none ∧
    inject_single [] "nope.csv" "t" "public" ⟨[], none, []⟩ 10000 =
      ⟨false, ⟨[], none, []⟩, [], false⟩ :=
  ⟨rfl, missing_path_no_effects [] ⟨[], none, []⟩ "nope.csv" "t" "public" 10000 rfl⟩

/-- C8: the per-batch intermediate file is NOT removed on the failure exit
path.  With batch size 1 and a file whose second batch contains a ragged row,
the loader writes `tmp_chunk.csv` for the first batch, the second batch read
raises, and `inject_single` returns failure with `tmp_chunk.csv` still
present on the filesystem (the source removes it only after the loop
completes; the `except` path performs no cleanup). -/
theorem tmp_file_left_on_failure :
    (inject_single [("data.csv", FsEntry.file ⟨["a"], [["1"], ["2", "3"]]⟩)]
      "data.csv" "t" "public" ⟨[], none, []⟩ 1).ok = false ∧
    aget tmpName (inject_single [("data.csv", FsEntry.file ⟨["a"], [["1"], ["2", "3"]]⟩)]
      "data.csv" "t" "public" ⟨[], none, []⟩ 1).fs =
      some (FsEntry.file ⟨["a"], [["1"]]⟩) := by decide

/-- C10: the column-name sanitizer (variant A) is idempotent: every output
character is a lowercase word character or an underscore, so sanitizing a
sanitized string changes nothing. -/
theorem clean_header_idempotent (s : String) :
    clean_header (clean_header s) = clean_header s := by
  rw [clean_header_eq_map s, clean_header_eq_map]
  congr 1
  show (s.data.map cleanChar).map cleanChar = s.data.map cleanChar
  rw [List.map_map]
  exact List.map_congr_left (fun c _ => cleanChar_idem c)

/-- C1: the claim's value-preservation part fails on the program.  The source
passes only `dtype=str` to `pd.read_csv` (`main.py` line 93), so pandas'
default NA filtering stays active: an NA-sentinel field of a well-formed file
is read as NaN, written by `to_csv` as an empty field, staged by
`COPY ... WITH CSV` as SQL NULL, and materialized by `row_to_json` as JSON
null instead of the unmodified source string.  At the failing input the
ingestion succeeds with exactly N rows keyed by the sanitized headers in
order and `"30"` stays the string `"30"` (no numeric coercion), but the
source field `"NA"` arrives as null. -/
theorem na_field_not_roundtripped :
    (inject_single
        [("people.csv", FsEntry.file ⟨["First Name", "Age"], [["Ann", "30"], ["Bo", "NA"]]⟩)]
        "people.csv" "people" "public" ⟨[], none, []⟩ 10000).ok = true ∧
    getTable ("public", "people")
        (inject_single
          [("people.csv", FsEntry.file ⟨["First Name", "Age"], [["Ann", "30"], ["Bo", "NA"]]⟩)]
          "people.csv" "people" "public" ⟨[], none, []⟩ 10000).db =
      some [[("first_name", some "Ann"), ("age", some "30")],
            [("first_name", some "Bo"), ("age", none)]] := by decide

/-- C9: for a well-formed input file the entire result of `inject_single` —
in particular the staged and destination row content and count — is the same
for any two nonzero batch sizes. -/
theorem batch_size_invariance (fs : FileSystem) (db : DB) (p t s : String)
    (f : CsvFile) (n m : Nat)
    (hf : aget p fs = some (FsEntry.file f))
    (hn : n ≠ 0) (hm : m ≠ 0)
    (hwf : ∀ r ∈ f.rows, r.length = f.header.length) :
    inject_single fs p t s db n = inject_single fs p t s db m := by
  by_cases hnd : (f.header.map clean_header).Nodup
  · rw [inject_single_eq_file t s db n hf, inject_single_eq_file t s db m hf,
      inject_file_eq_success fs t s db n f hnd (chunks_all_of_wf hwf),
      inject_file_eq_success fs t s db m f hnd (chunks_all_of_wf hwf)]
    simp only [chunksOf_flatten hn, chunksOf_flatten hm]
  · rw [inject_single_eq_file t s db n hf, inject_single_eq_file t s db m hf,
      inject_file_eq_dup fs t s db n f hnd, inject_file_eq_dup fs t s db m f hnd]

/-- Witness for `batch_size_invariance`: batch sizes 1 and 10000 agree on a
three-row file. -/
theorem batch_size_invariance_witness :
    aget "v.csv" [("v.csv", FsEntry.file ⟨["a", "b"], [["1", "x"], ["2", "y"], ["3", "z"]]⟩)] =
      some (FsEntry.file ⟨["a", "b"], [["1", "x"], ["2", "y"], ["3", "z"]]⟩) ∧
    (1 : Nat) ≠ 0 ∧ (10000 : Nat) ≠ 0 ∧
    (∀ r ∈ [["1", "x"], ["2", "y"], ["3", "z"]],
      r.length = (["a", "b"] : List String).length) ∧
    inject_single [("v.csv", FsEntry.file ⟨["a", "b"], [["1", "x"], ["2", "y"], ["3", "z"]]⟩)]
        "v.csv" "t" "public" ⟨[], none, []⟩ 1 =
      inject_single [("v.csv", FsEntry.file ⟨["a", "b"], [["1", "x"], ["2", "y"], ["3", "z"]]⟩)]
        "v.csv" "t" "public" ⟨[], none, []⟩ 10000 :=
  ⟨by decide, by decide, by decide, by decide,
   batch_size_invariance _ ⟨[], none, []⟩ "v.csv" "t" "public"
     ⟨["a", "b"], [["1", "x"], ["2", "y"], ["3", "z"]]⟩ 1 10000
     (by decide) (by decide) (by decide) (by decide)⟩

/-- C6: one file's failure does not stop the batch: every discovered file is
attempted in order (the per-file outcome list covers exactly the discovered
files), successes are tallied against the total, and the overall flag is true
iff at least one file succeeded. -/
theorem batch_isolation (fs : FileSystem) (db : DB) (d sn : String) (u : Bool)
    (p : String) (csz : Nat) (es : List String)
    (hd : aget d fs = some (FsEntry.dir es))
    (hne : es.filter matchesCsv ≠ []) :
    (inject_multiple fs d sn u p db csz).results.map Prod.fst = es.filter matchesCsv ∧
    (inject_multiple fs d sn u p db csz).results.length = (es.filter matchesCsv).length ∧
    ((inject_multiple fs d sn u p db csz).ok = true ↔
      ∃ pr ∈ (inject_multiple fs d sn u p db csz).results, pr.2 = true) := by
  have hF : (es.filter matchesCsv).isEmpty = false := by
    rcases hl : es.filter matchesCsv with _ | ⟨a, l⟩
    · exact absurd hl hne
    · rfl
  simp only [inject_multiple, hd, hF, Bool.false_eq_true, if_false]
  have h1 := batch_foldl_results d sn u p csz (es.filter matchesCsv) db fs []
  simp only [List.map_nil, List.nil_append] at h1
  refine ⟨h1, ?_, pos_filter_iff _⟩
  conv_rhs => rw [← h1]
  rw [List.length_map]

/-- C7: discovery considers exactly the immediate entries of the directory
whose name case-insensitively ends in `.csv` (no recursion into other
entries); a missing or non-directory path, or an empty match list, fails
immediately with states untouched and zero files attempted. -/
theorem batch_discovery (fs : FileSystem) (db : DB) (d sn : String) (u : Bool)
    (p : String) (csz : Nat) :
    (∀ es, aget d fs = some (FsEntry.dir es) →
      ((inject_multiple fs d sn u p db csz).results.map Prod.fst = es.filter matchesCsv ∧
       (es.filter matchesCsv = [] →
        inject_multiple fs d sn u p db csz = ⟨false, db, fs, []⟩))) ∧
    ((∀ es, aget d fs ≠ some (FsEntry.dir es)) →
      inject_multiple fs d sn u p db csz = ⟨false, db, fs, []⟩) := by
  constructor
  · intro es hd
    by_cases hemp : es.filter matchesCsv = []
    · have he : inject_multiple fs d sn u p db csz = ⟨false, db, fs, []⟩ := by
        simp only [inject_multiple, hd, hemp, List.isEmpty_nil, if_true]
      refine ⟨?_, fun _ => he⟩
      rw [he, hemp]
      rfl
    · have hF : (es.filter matchesCsv).isEmpty = false := by
        rcases hl : es.filter matchesCsv with _ | ⟨a, l⟩
        · exact absurd hl hemp
        · rfl
      refine ⟨?_, fun h => absurd h hemp⟩
      simp only [inject_multiple, hd, hF, Bool.false_eq_true, if_false]
      have h1 := batch_foldl_results d sn u p csz (es.filter matchesCsv) db fs []
      simpa using h1
  · intro hne
    rcases hd : aget d fs with _ | e
    · rw [inject_multiple, hd]
    · rcases e with f | es2
      · rw [inject_multiple, hd]
      · exact absurd hd (hne es2)

/-- Witness for `batch_isolation`: a directory with one malformed file, one
well-formed file and one non-CSV entry reports both CSV attempts and overall
success. -/
theorem batch_isolation_witness :
    aget "d" [("d", FsEntry.dir ["bad.csv", "good.csv", "note.txt"]),
        ("d/bad.csv", FsEntry.file ⟨["a"], [["1", "2"]]⟩),
        ("d/good.csv", FsEntry.file ⟨["a"], [["1"]]⟩)] =
      some (FsEntry.dir ["bad.csv", "good.csv", "note.txt"]) ∧
    ["bad.csv", "good.csv", "note.txt"].filter matchesCsv ≠ [] ∧
    ((inject_multiple [("d", FsEntry.dir ["bad.csv", "good.csv", "note.txt"]),
        ("d/bad.csv", FsEntry.file ⟨["a"], [["1", "2"]]⟩),
        ("d/good.csv", FsEntry.file ⟨["a"], [["1"]]⟩)]
        "d" "public" false "" ⟨[], none, []⟩ 10000).results.map Prod.fst =
      ["bad.csv", "good.csv", "note.txt"].filter matchesCsv ∧
     (inject_multiple [("d", FsEntry.dir ["bad.csv", "good.csv", "note.txt"]),
        ("d/bad.csv", FsEntry.file ⟨["a"], [["1", "2"]]⟩),
        ("d/good.csv", FsEntry.file ⟨["a"], [["1"]]⟩)]
        "d" "public" false "" ⟨[], none, []⟩ 10000).results.length =
      (["bad.csv", "good.csv", "note.txt"].filter matchesCsv).length ∧
     ((inject_multiple [("d", FsEntry.dir ["bad.csv", "good.csv", "note.txt"]),
        ("d/bad.csv", FsEntry.file ⟨["a"], [["1", "2"]]⟩),
        ("d/good.csv", FsEntry.file ⟨["a"], [["1"]]⟩)]
        "d" "public" false "" ⟨[], none, []⟩ 10000).ok = true ↔
      ∃ pr ∈ (inject_multiple [("d", FsEntry.dir ["bad.csv", "good.csv", "note.txt"]),
        ("d/bad.csv", FsEntry.file ⟨["a"], [["1", "2"]]⟩),
        ("d/good.csv", FsEntry.file ⟨["a"], [["1"]]⟩)]
        "d" "public" false "" ⟨[], none, []⟩ 10000).results, pr.2 = true)) :=
  ⟨by decide, by decide,
   batch_isolation _ ⟨[], none, []⟩ "d" "public" false "" 10000
     ["bad.csv", "good.csv", "note.txt"] (by decide) (by decide)⟩

/-- Witness for `batch_discovery`: a populated directory and a missing one. -/
theorem batch_discovery_witness :
    aget "d" [("d", FsEntry.dir ["a.CSV", "b.txt"]),
        ("d/a.CSV", FsEntry.file ⟨["x"], [["1"]]⟩)] =
      some (FsEntry.dir ["a.CSV", "b.txt"]) ∧
    (inject_multiple [("d", FsEntry.dir ["a.CSV", "b.txt"]),
        ("d/a.CSV", FsEntry.file ⟨["x"], [["1"]]⟩)]
        "d" "public" false "" ⟨[], none, []⟩ 10000).results.map Prod.fst =
      ["a.CSV", "b.txt"].filter matchesCsv ∧
    (∀ es, aget "e" ([] : FileSystem) ≠ some (FsEntry.dir es)) ∧
    inject_multiple [] "e" "public" false "" ⟨[], none, []⟩ 10000 =
      ⟨false, ⟨[], none, []⟩, [], []⟩ :=
  ⟨rfl,
   ((batch_discovery [("d", FsEntry.dir ["a.CSV", "b.txt"]),
       ("d/a.CSV", FsEntry.file ⟨["x"], [["1"]]⟩)]
       ⟨[], none, []⟩ "d" "public" false "" 10000).1 ["a.CSV", "b.txt"] rfl).1,
   fun es h => by exact absurd h (by simp [aget]),
   (batch_discovery [] ⟨[], none, []⟩ "e" "public" false "" 10000).2
     (fun es h => by exact absurd h (by simp [aget]))⟩

/-- C5: ingesting the same file into the same schema-qualified destination
twice yields the same success flag and an identical destination relation
after each run (the destination is dropped-if-exists and recreated, never
appended to).  The source path is assumed distinct from the reserved
intermediate-file name. -/
theorem reingest_same_destination (fs : FileSystem) (db : DB) (p t s : String)
    (csz : Nat) (hp : p ≠ tmpName) :
    (inject_single (inject_single fs p t s db csz).fs p t s
      (inject_single fs p t s db csz).db csz).ok = (inject_single fs p t s db csz).ok ∧
    getTable (s, t) (inject_single (inject_single fs p t s db csz).fs p t s
      (inject_single fs p t s db csz).db csz).db =
      getTable (s, t) (inject_single fs p t s db csz).db := by
  rcases hfp : aget p fs with _ | e
  · have e1 := inject_single_eq_none t s db csz hfp
    have hfs2 : (inject_single fs p t s db csz).fs = fs := congrArg SingleResult.fs e1
    have hdb2 : (inject_single fs p t s db csz).db = db := congrArg SingleResult.db e1
    rw [hfs2, hdb2, e1]
    exact ⟨rfl, rfl⟩
  · rcases e with f | es
    · by_cases hnd : (f.header.map clean_header).Nodup
      · rcases Bool.eq_false_or_eq_true ((chunksOf csz f.rows).all
          (fun c => c.all (fun r => decide (r.length ≤ f.header.length)))) with hall | hall
        · -- both runs succeed and write the same destination content
          have e1 := (inject_single_eq_file t s db csz hfp).trans
            (inject_file_eq_success fs t s db csz f hnd hall)
          have hok1 : (inject_single fs p t s db csz).ok = true :=
            congrArg SingleResult.ok e1
          have hfs2 : (inject_single fs p t s db csz).fs = aerase tmpName fs :=
            congrArg SingleResult.fs e1
          have hdb2 : (inject_single fs p t s db csz).db =
              setTable (s, t)
                ((((chunksOf csz f.rows).flatten).map (padRow f.header.length)).map
                  (fun r => (f.header.map clean_header).zip r))
                { ensureSchema s db with
                    csvTemp := some (f.header.map clean_header,
                      ((chunksOf csz f.rows).flatten).map (padRow f.header.length)) } :=
            congrArg SingleResult.db e1
          rw [hok1, hfs2, hdb2]
          have hfp2 : aget p (aerase tmpName fs) = some (FsEntry.file f) := by
            rw [aget_aerase_ne fs hp]; exact hfp
          rw [inject_single_eq_file t s _ csz hfp2,
            inject_file_eq_success (aerase tmpName fs) t s _ csz f hnd hall]
          exact ⟨rfl, by rw [getTable_setTable_self, getTable_setTable_self]⟩
        · -- the chunk loader fails in both runs; the destination is untouched
          have e1 := inject_single_eq_file t s db csz hfp
          have parts1 := inject_file_fail_parts fs t s db csz f hnd hall
          have hok1 : (inject_single fs p t s db csz).ok = false := by
            rw [e1]; exact parts1.1
          have hfs1 : aget p (inject_single fs p t s db csz).fs = aget p fs := by
            rw [e1]; exact parts1.2.2 p hp
          have hfp2 : aget p (inject_single fs p t s db csz).fs = some (FsEntry.file f) := by
            rw [hfs1, hfp]
          have e2 := inject_single_eq_file t s (inject_single fs p t s db csz).db csz hfp2
          have parts2 := inject_file_fail_parts (inject_single fs p t s db csz).fs t s
            (inject_single fs p t s db csz).db csz f hnd hall
          constructor
          · rw [e2, parts2.1, hok1]
          · simp only [getTable]
            rw [e2, parts2.2.1]
      · -- duplicate sanitized columns: staging DDL fails in both runs
        have e1 := (inject_single_eq_file t s db csz hfp).trans
          (inject_file_eq_dup fs t s db csz f hnd)
        have hok1 : (inject_single fs p t s db csz).ok = false :=
          congrArg SingleResult.ok e1
        have hfs2 : (inject_single fs p t s db csz).fs = fs :=
          congrArg SingleResult.fs e1
        have hdb2 : (inject_single fs p t s db csz).db =
            { ensureSchema s db with csvTemp := none } :=
          congrArg SingleResult.db e1
        rw [hok1, hfs2, hdb2]
        rw [inject_single_eq_file t s _ csz hfp, inject_file_eq_dup fs t s _ csz f hnd]
        constructor
        · rfl
        · show aget (s, t) (ensureSchema s { ensureSchema s db with csvTemp := none }).tables =
            aget (s, t) (ensureSchema s db).tables
          rw [ensureSchema_tables, ensureSchema_tables]
    · -- the path is a directory: read fails after schema creation in both runs
      have e1 := inject_single_eq_dir t s db csz hfp
      have hok1 : (inject_single fs p t s db csz).ok = false :=
        congrArg SingleResult.ok e1
      have hfs2 : (inject_single fs p t s db csz).fs = fs :=
        congrArg SingleResult.fs e1
      have hdb2 : (inject_single fs p t s db csz).db = ensureSchema s db :=
        congrArg SingleResult.db e1
      rw [hok1, hfs2, hdb2, inject_single_eq_dir t s (ensureSchema s db) csz hfp]
      exact ⟨rfl, by simp only [getTable, ensureSchema_tables]⟩

/-- Witness for `reingest_same_destination` at the spec §8 example file. -/
theorem reingest_same_destination_witness :
    ("people.csv" : String) ≠ tmpName ∧
    ((inject_single
        (inject_single [("people.csv", FsEntry.file ⟨["First Name", "Age"], [["Ann", "30"], ["Bo", "41"]]⟩)]
          "people.csv" "people" "public" ⟨[], none, []⟩ 10000).fs
        "people.csv" "people" "public"
        (inject_single [("people.csv", FsEntry.file ⟨["First Name", "Age"], [["Ann", "30"], ["Bo", "41"]]⟩)]
          "people.csv" "people" "public" ⟨[], none, []⟩ 10000).db 10000).ok =
      (inject_single [("people.csv", FsEntry.file ⟨["First Name", "Age"], [["Ann", "30"], ["Bo", "41"]]⟩)]
        "people.csv" "people" "public" ⟨[], none, []⟩ 10000).ok ∧
     getTable ("public", "people")
        (inject_single
          (inject_single [("people.csv", FsEntry.file ⟨["First Name", "Age"], [["Ann", "30"], ["Bo", "41"]]⟩)]
            "people.csv" "people" "public" ⟨[], none, []⟩ 10000).fs
          "people.csv" "people" "public"
          (inject_single [("people.csv", FsEntry.file ⟨["First Name", "Age"], [["Ann", "30"], ["Bo", "41"]]⟩)]
            "people.csv" "people" "public" ⟨[], none, []⟩ 10000).db 10000).db =
      getTable ("public", "people")
        (inject_single [("people.csv", FsEntry.file ⟨["First Name", "Age"], [["Ann", "30"], ["Bo", "41"]]⟩)]
          "people.csv" "people" "public" ⟨[], none, []⟩ 10000).db) :=
  ⟨by decide,
   reingest_same_destination
     [("people.csv", FsEntry.file ⟨["First Name", "Age"], [["Ann", "30"], ["Bo", "41"]]⟩)]
     ⟨[], none, []⟩ "people.csv" "people" "public" 10000 (by decide)⟩
